import Mathlib

/-!
Verification of the command-execution core of the custom-redis repository.

The TypeScript sources are embedded shallowly:
  - JS `Map<string, V>` becomes a function map `String → Option V`;
  - `Date.now()` becomes an explicit `now : ℕ` argument (milliseconds);
  - JS reference identity of freshly allocated objects is modelled by an
    explicit `objId : ℕ` field supplied at allocation time; the runtime
    guarantee that `new` yields an object distinct from all live ones is
    expressed as a hypothesis where a theorem needs it;
  - thrown exceptions become `Except` values;
  - mutation of `this` becomes explicit state passing: a method that
    mutates returns the updated value.
Timestamps are natural numbers of milliseconds.
-/

namespace CustomRedis

/-! ## src/engine/valueEntry.ts -/

/-- `RedisDataType` from src/engine/valueEntry.ts. -/
inductive RedisDataType where
  | string
  | list
  | set
  | hash
  | stream
  deriving DecidableEq

/-- `ValueEntry<T>` from src/engine/valueEntry.ts.  All fields are readonly
in the source.  `objId` is not a source field: it models the JS object
identity of the instance (each `new` allocates a fresh object). -/
structure ValueEntry (α : Type) where
  type : RedisDataType
  value : α
  createdAt : ℕ
  updatedAt : ℕ
  objId : ℕ
  deriving DecidableEq

variable {α β E : Type}

/-- The `ValueEntry` constructor: `createdAt` defaults to `now` when the
optional argument is omitted, `updatedAt` is always `now`
(`const now = Date.now()`). -/
def ValueEntry.make (ty : RedisDataType) (v : α) (createdAtOpt : Option ℕ)
    (now objId : ℕ) : ValueEntry α :=
  { type := ty
    value := v
    createdAt := createdAtOpt.getD now
    updatedAt := now
    objId := objId }

/-- `ValueEntry.cloneWithValue`: `new ValueEntry(this.type, value, this.createdAt)`. -/
def ValueEntry.cloneWithValue (e : ValueEntry α) (v : β) (now objId : ℕ) :
    ValueEntry β :=
  ValueEntry.make e.type v (some e.createdAt) now objId

/-! ## src/engine/database.ts

`Database` never inspects the entries it stores, so the embedding is
parameterised by the entry type `E` (the source stores `ValueEntry`). -/

/-- The two private maps of `Database`. -/
structure Database (E : Type) where
  keyspace : String → Option E
  expirations : String → Option ℕ

/-- A freshly constructed `Database`: both maps empty. -/
def Database.empty : Database E :=
  { keyspace := fun _ => none, expirations := fun _ => none }

/-- `Database.isExpired`: `expiry !== undefined && Date.now() >= expiry`. -/
def Database.isExpired (db : Database E) (now : ℕ) (key : String) : Bool :=
  match db.expirations key with
  | none => false
  | some expiry => decide (now ≥ expiry)

/-- `Database.delete`: removes `key` from both maps. -/
def Database.delete (db : Database E) (key : String) : Database E :=
  { keyspace := fun k => if k = key then none else db.keyspace k
    expirations := fun k => if k = key then none else db.expirations k }

/-- `Database.get`: lazy expiry check, then keyspace lookup.  The source
returns `this.keyspace.get(key) || null`; entries are objects, hence always
truthy, so this is a plain lookup.  The updated database is returned
alongside the result because `get` can delete. -/
def Database.get (db : Database E) (now : ℕ) (key : String) :
    Database E × Option E :=
  if db.isExpired now key then (db.delete key, none)
  else (db, db.keyspace key)

/-- `Database.set`: writes only `keyspace`. -/
def Database.set (db : Database E) (key : String) (entry : E) : Database E :=
  { db with keyspace := fun k => if k = key then some entry else db.keyspace k }

/-- `Database.setExpiry`: `if (!this.keyspace.has(key)) return;` then
`this.expirations.set(key, timestampMs)`. -/
def Database.setExpiry (db : Database E) (key : String) (timestampMs : ℕ) :
    Database E :=
  if (db.keyspace key).isSome then
    { db with
      expirations := fun k => if k = key then some timestampMs else db.expirations k }
  else db

/-! ## Theorems for the Database layer -/

/-- C1: `Database.get` applies lazy expiration.  If `key` has a recorded
expiry that is at or before `now`, `get` deletes the key from both maps and
returns absent, and any later `get` of the key on the resulting state also
returns absent; if the key is not expired at `now`, `get` leaves the state
unchanged and returns the stored entry (absent if never set). -/
theorem C1_get_lazy_expiry (db : Database E) (now : ℕ) (key : String) :
    (∀ expiry, db.expirations key = some expiry → expiry ≤ now →
      (db.get now key).2 = none ∧
      ((db.get now key).1).keyspace key = none ∧
      ((db.get now key).1).expirations key = none ∧
      ∀ now2, (((db.get now key).1).get now2 key).2 = none) ∧
    (db.isExpired now key = false →
      db.get now key = (db, db.keyspace key)) := by
  constructor
  · intro expiry hexp hle
    have hisexp : db.isExpired now key = true := by
      simp [Database.isExpired, hexp, hle]
    have hget : db.get now key = (db.delete key, none) := by
      simp [Database.get, hisexp]
    refine ⟨by simp [hget], by simp [hget, Database.delete], by simp [hget, Database.delete], ?_⟩
    intro now2
    rw [hget]
    have hisexp2 : (db.delete key).isExpired now2 key = false := by
      simp [Database.isExpired, Database.delete]
    simp only [Database.get, Database.delete]
    split <;> simp
  · intro hnot
    simp [Database.get, hnot]

/-- Witness for C1 at a concrete state: key `k` with expiry 100, read at
time 150, and a non-expired read at time 50. -/
theorem C1_get_lazy_expiry_witness :
    (((Database.empty.set "k" (7 : ℕ)).setExpiry "k" 100).get 150 "k").2 = none ∧
    ((Database.empty.set "k" (7 : ℕ)).get 50 "k").2 = some 7 := by
  have h := C1_get_lazy_expiry ((Database.empty.set "k" (7 : ℕ)).setExpiry "k" 100) 150 "k"
  have hexp : ((Database.empty.set "k" (7 : ℕ)).setExpiry "k" 100).expirations "k" = some 100 := by
    simp [Database.setExpiry, Database.set, Database.empty]
  have h2 := C1_get_lazy_expiry (Database.empty.set "k" (7 : ℕ)) 50 "k"
  have hnot : (Database.empty.set "k" (7 : ℕ)).isExpired 50 "k" = false := by
    simp [Database.isExpired, Database.set, Database.empty]
  refine ⟨(h.1 100 hexp (by norm_num)).1, ?_⟩
  rw [h2.2 hnot]
  simp [Database.set, Database.empty]

/-- C2: `Database.set` replaces or creates only the keyspace entry for the
given key; the expirations map is unchanged (so any recorded TTL instant
survives a SET), and other keyspace entries are unchanged. -/
theorem C2_set_preserves_ttl (db : Database E) (key : String) (entry : E) :
    (db.set key entry).expirations = db.expirations ∧
    (db.set key entry).keyspace key = some entry ∧
    ∀ k2, k2 ≠ key → (db.set key entry).keyspace k2 = db.keyspace k2 := by
  refine ⟨rfl, by simp [Database.set], ?_⟩
  intro k2 hne
  simp [Database.set, hne]

/-- Witness for C2 at a concrete state. -/
theorem C2_set_preserves_ttl_witness :
    ((Database.empty.set "a" (1 : ℕ)).set "a" 2).expirations = (Database.empty.set "a" (1 : ℕ)).expirations ∧
    ((Database.empty.set "a" (1 : ℕ)).set "a" 2).keyspace "b" = (Database.empty.set "a" (1 : ℕ)).keyspace "b" := by
  have h := C2_set_preserves_ttl (Database.empty.set "a" (1 : ℕ)) "a" 2
  exact ⟨h.1, h.2.2 "b" (by decide)⟩

/-! ## Reachable-state invariant of Database (claim C3) -/

/-- Every key with a recorded expiration is present in the keyspace. -/
def DbInv (db : Database E) : Prop :=
  ∀ k, (db.expirations k).isSome → (db.keyspace k).isSome

/-- The public operations of `Database`, as data, so that arbitrary call
sequences can be quantified over.  `get` and `isExpired` take the
`Date.now()` value of the call; `isExpired` is read-only. -/
inductive DbOp (E : Type) where
  | get (now : ℕ) (key : String)
  | set (key : String) (entry : E)
  | del (key : String)
  | setExpiry (key : String) (timestampMs : ℕ)
  | isExpired (now : ℕ) (key : String)

/-- State effect of one operation (results are discarded; `isExpired` has
no effect). -/
def applyOp (db : Database E) : DbOp E → Database E
  | .get now key => (db.get now key).1
  | .set key entry => db.set key entry
  | .del key => db.delete key
  | .setExpiry key ts => db.setExpiry key ts
  | .isExpired _ _ => db

/-- State after a sequence of operations from a given start state. -/
def runOps (db : Database E) (ops : List (DbOp E)) : Database E :=
  ops.foldl applyOp db

theorem DbInv.empty : DbInv (Database.empty : Database E) := by
  intro k h
  simp [Database.empty] at h

theorem DbInv.delete (db : Database E) (hinv : DbInv db) (key : String) :
    DbInv (db.delete key) := by
  intro k h
  by_cases hk : k = key <;> simp [Database.delete, hk] at h ⊢
  exact hinv k h

theorem DbInv.setExpiry (db : Database E) (hinv : DbInv db) (key : String) (ts : ℕ) :
    DbInv (db.setExpiry key ts) := by
  unfold Database.setExpiry
  split
  · rename_i hsome
    intro k h
    by_cases hk : k = key
    · subst hk
      exact hsome
    · have h2 : (db.expirations k).isSome := by simpa [hk] using h
      exact hinv k h2
  · exact hinv

theorem DbInv.step (db : Database E) (hinv : DbInv db) (op : DbOp E) :
    DbInv (applyOp db op) := by
  cases op with
  | get now key =>
    simp only [applyOp, Database.get]
    split
    · exact hinv.delete db key
    · exact hinv
  | set key entry =>
    intro k h
    by_cases hk : k = key <;> simp [applyOp, Database.set, hk] at h ⊢
    exact hinv k h
  | del key => exact hinv.delete db key
  | setExpiry key ts => exact hinv.setExpiry db key ts
  | isExpired now key => exact hinv

theorem runOps_inv (db : Database E) (hinv : DbInv db) (ops : List (DbOp E)) :
    DbInv (runOps db ops) := by
  induction ops generalizing db with
  | nil => exact hinv
  | cons op rest ih => exact ih (applyOp db op) (hinv.step db op)

/-- C3: the expirations-subset-of-keyspace invariant holds in every state
reachable from a fresh `Database` by any sequence of public operations;
moreover `setExpiry` on a key absent from the keyspace is a no-op, and
`delete` removes the key from both maps. -/
theorem C3_expirations_subset_keyspace (ops : List (DbOp E)) :
    DbInv (runOps Database.empty ops) ∧
    (∀ (db : Database E) key ts, db.keyspace key = none → db.setExpiry key ts = db) ∧
    (∀ (db : Database E) key, (db.delete key).keyspace key = none ∧
      (db.delete key).expirations key = none) := by
  refine ⟨runOps_inv Database.empty DbInv.empty ops, ?_, ?_⟩
  · intro db key ts hnone
    simp [Database.setExpiry, hnone]
  · intro db key
    simp [Database.delete]

/-- Witness for C3: a concrete operation sequence, plus the two auxiliary
facts at concrete inputs. -/
theorem C3_expirations_subset_keyspace_witness :
    DbInv (runOps (Database.empty : Database ℕ)
      [DbOp.set "a" 1, DbOp.setExpiry "a" 100, DbOp.get 200 "a"]) ∧
    (Database.empty : Database ℕ).setExpiry "x" 5 = Database.empty ∧
    ((Database.empty : Database ℕ).delete "x").keyspace "x" = none := by
  have h := C3_expirations_subset_keyspace
    (E := ℕ) [DbOp.set "a" 1, DbOp.setExpiry "a" 100, DbOp.get 200 "a"]
  exact ⟨h.1, h.2.1 Database.empty "x" 5 rfl, (h.2.2 Database.empty "x").1⟩

/-! ## Theorems for ValueEntry (claim C9) -/

/-- C9: `cloneWithValue` keeps `type` and `createdAt`, installs the supplied
value, stamps `updatedAt` with the clone-time instant, and — because `new`
allocates a fresh object, modelled by a fresh `objId` — is never the same
instance as the receiver.  The receiver itself is a pure value here, so its
fields are untouched by construction. -/
theorem C9_cloneWithValue (e : ValueEntry α) (v : α) (now objId : ℕ)
    (hfresh : objId ≠ e.objId) :
    (e.cloneWithValue v now objId).type = e.type ∧
    (e.cloneWithValue v now objId).createdAt = e.createdAt ∧
    (e.cloneWithValue v now objId).value = v ∧
    (e.cloneWithValue v now objId).updatedAt = now ∧
    e.cloneWithValue v now objId ≠ e := by
  refine ⟨rfl, rfl, rfl, rfl, ?_⟩
  intro hcontra
  exact hfresh (congrArg ValueEntry.objId hcontra)

/-- Witness for C9 at a concrete entry. -/
theorem C9_cloneWithValue_witness :
    ((ValueEntry.make RedisDataType.string (5 : ℕ) none 10 0).cloneWithValue 6 20 1).createdAt = 10 ∧
    ((ValueEntry.make RedisDataType.string (5 : ℕ) none 10 0).cloneWithValue 6 20 1).updatedAt = 20 ∧
    (ValueEntry.make RedisDataType.string (5 : ℕ) none 10 0).cloneWithValue 6 20 1 ≠
      ValueEntry.make RedisDataType.string (5 : ℕ) none 10 0 := by
  have h := C9_cloneWithValue (ValueEntry.make RedisDataType.string (5 : ℕ) none 10 0)
    6 20 1 (by decide)
  exact ⟨h.2.1, h.2.2.2.1, h.2.2.2.2⟩

/-! ## Engine (src/engine/engine.ts, present as an unnamed source file) -/

/-- Modelled from the spec: `DEFAULT_DB_COUNT` is imported from src/configs,
which is absent from src/; the spec fixes the default database count at 16. -/
def DEFAULT_DB_COUNT : ℕ := 16

/-- `Engine`: a fixed number of databases created at construction. -/
structure Engine (E : Type) where
  dbCount : ℕ
  databases : List (Database E)

/-- The `Engine` constructor: `Array.from({length: dbCount}, () => new Database())`
creates `dbCount` fresh empty databases. -/
def Engine.make (dbCount : ℕ) : Engine E :=
  { dbCount := dbCount, databases := List.replicate dbCount Database.empty }

/-- `Engine.getDatabase`: throws when `index < 0 || index >= this.dbCount`,
otherwise returns the database at `index`.  Constructed engines satisfy
`databases.length = dbCount`, so the `getD` default is never reached on
guarded indices. -/
def Engine.getDatabase (eng : Engine E) (index : ℤ) : Except String (Database E) :=
  if index < 0 ∨ (eng.dbCount : ℤ) ≤ index then
    Except.error "Database index out of range"
  else
    Except.ok (eng.databases.getD index.toNat Database.empty)

/-- A Database operation performed through the reference returned by
`getDatabase i` mutates that array element in place; in the state-passing
embedding this updates the element at index `i`. -/
def Engine.modifyDatabase (eng : Engine E) (index : ℕ)
    (f : Database E → Database E) : Engine E :=
  { eng with
    databases := eng.databases.set index (f (eng.databases.getD index Database.empty)) }

/-- C10: for distinct valid indices `i` and `j` of an engine whose database
list has the constructed length, any database operation applied through
index `i` leaves the database observed through index `j` unchanged — the
databases at distinct indices have disjoint state. -/
theorem C10_database_isolation (eng : Engine E) (i j : ℤ)
    (f : Database E → Database E)
    (hlen : eng.databases.length = eng.dbCount)
    (hi : 0 ≤ i ∧ i < (eng.dbCount : ℤ)) (hj : 0 ≤ j ∧ j < (eng.dbCount : ℤ))
    (hij : i ≠ j) :
    (eng.modifyDatabase i.toNat f).getDatabase j = eng.getDatabase j := by
  have hguard : ¬(j < 0 ∨ (eng.dbCount : ℤ) ≤ j) := by omega
  have hne : i.toNat ≠ j.toNat := by omega
  have hjlt : j.toNat < eng.databases.length := by omega
  simp only [Engine.getDatabase, Engine.modifyDatabase, hguard, if_neg, not_false_iff]
  have : (eng.databases.set i.toNat
      (f (eng.databases.getD i.toNat Database.empty))).getD j.toNat Database.empty =
      eng.databases.getD j.toNat Database.empty := by
    simp [List.getElem?_set_ne hne]
  rw [this]

/-- Witness for C10: a SET through database 0 of a fresh 16-database engine
does not change what database 1 returns. -/
theorem C10_database_isolation_witness :
    ((Engine.make 16 : Engine ℕ).modifyDatabase 0
        (fun db => db.set "k" 5)).getDatabase 1 =
      (Engine.make 16 : Engine ℕ).getDatabase 1 := by
  exact C10_database_isolation (Engine.make 16) 0 1 (fun db => db.set "k" 5)
    (by simp [Engine.make]) (by constructor <;> norm_num [Engine.make])
    (by constructor <;> norm_num [Engine.make]) (by decide)

/-! ## src/commands/errors.ts -/

/-- Primitive field values of a detail record (`string | number | boolean`). -/
inductive DetailVal where
  | str (s : String)
  | num (n : Int)
  | bool (b : Bool)
  deriving DecidableEq

/-- `Detail`: `string | { [key: string]: string | number | boolean }`. -/
inductive Detail where
  | str (s : String)
  | obj (fields : List (String × DetailVal))
  deriving DecidableEq

/-- The `Meta` type of errors.ts; every field is optional. -/
structure Meta where
  command : Option String
  dbIndex : Option ℕ
  clientId : Option String
  argsCount : Option ℕ
  deriving DecidableEq

/-- The empty meta object `{}`. -/
def Meta.empty : Meta := ⟨none, none, none, none⟩

/-- A `CommandError` value: `name` is the subclass name installed from
`new.target.name`, `meta` is frozen at construction (`Object.freeze`),
`details` starts empty.  JS quote characters inside messages are omitted in
the embedding. -/
structure CommandError where
  name : String
  message : String
  meta : Meta
  details : List Detail
  deriving DecidableEq

/-- The `CommandError` base constructor. -/
def CommandError.make (message : String) (meta : Meta) : CommandError :=
  { name := "CommandError", message := message, meta := meta, details := [] }

/-- `CommandError.addDetails`: pushes one detail or a list of details onto
`this.details`; the doc comment in the source says it mutates the current
error instance, rendered here as returning the updated value. -/
def CommandError.addDetails (e : CommandError) (d : Detail ⊕ List Detail) :
    CommandError :=
  match d with
  | Sum.inl d1 => { e with details := e.details ++ [d1] }
  | Sum.inr ds => { e with details := e.details ++ ds }

/-- The `UnknownCommandError` constructor. -/
def UnknownCommandError.make (command : String) : CommandError :=
  { name := "UnknownCommandError"
    message := "Unknown command " ++ command
    meta := { Meta.empty with command := some command }
    details := [] }

/-- The `ArityErrorDetails` type of errors.ts. -/
structure ArityErrorDetails where
  min : ℕ
  max : ℕ
  actual : ℕ
  deriving DecidableEq

/-- The declared default of the `meta` parameter of the `ArityError`
constructor (`{ min: 0, max: 0, actual: 0 }`); dispatcher.ts calls
`new ArityError(commandName)` with the argument omitted, so this default
applies there. -/
def ArityError.defaultDetails : ArityErrorDetails := ⟨0, 0, 0⟩

/-- The `ArityError` constructor: the bounds and actual count appear in the
message, and only `command` and `argsCount` are recorded in `meta`. -/
def ArityError.make (command : String) (meta : ArityErrorDetails) : CommandError :=
  { name := "ArityError"
    message := "Wrong number of arguments for " ++ command ++ " expected " ++
      toString meta.min ++ ".." ++ toString meta.max ++ " got " ++ toString meta.actual
    meta := { Meta.empty with command := some command, argsCount := some meta.actual }
    details := [] }

/-- The `InvalidArgumentError` constructor. -/
def InvalidArgumentError.make (message : String) (meta : Meta) : CommandError :=
  { name := "InvalidArgumentError", message := message, meta := meta, details := [] }

/-! ## src/commands/context.ts, command.ts, registry.ts, dispatcher.ts -/

/-- `CommandContext`: immutable per-call session state. -/
structure CommandContext where
  dbIndex : ℕ
  clientId : Option String
  deriving DecidableEq

/-- `CommandContext.withDatabase`: a new context with the database changed. -/
def CommandContext.withDatabase (ctx : CommandContext) (dbIndex : ℕ) :
    CommandContext :=
  { ctx with dbIndex := dbIndex }

/-- Inclusive arity bounds of a command. -/
structure Arity where
  min : ℕ
  max : ℕ
  deriving DecidableEq

variable {A S R : Type}

/-- The abstract `Command` contract of command.ts.  `A` is the dynamic
(JS `unknown`) value type, `S` the engine state threaded through `execute`,
`R` the result type.  `parse` is the optional hook; both `parse` and
`execute` may throw, rendered as `Except CommandError`. -/
structure Command (A S R : Type) where
  name : String
  arity : Arity
  isWrite : Bool
  parse : Option (List A → Except CommandError A)
  execute : S → CommandContext → A → Except CommandError (S × R)

/-- JS `toUpperCase()` as a structural function over the character list
(Lean's own String.toUpper is defined by well-founded recursion and does
not reduce definitionally, which the evaluation witnesses need). -/
def jsToUpper (s : String) : String :=
  ⟨s.data.map Char.toUpper⟩

/-- The private `commands` map of `CommandRegistry`, with JS-Map insertion
order kept as list order. -/
abbrev Registry (A S R : Type) := List (String × Command A S R)

/-- `CommandRegistry.register`: stores under the uppercased name, throws on
a duplicate. -/
def CommandRegistry.register (reg : Registry A S R) (cmd : Command A S R) :
    Except CommandError (Registry A S R) :=
  let commandName := jsToUpper cmd.name
  if (reg.lookup commandName).isSome then
    Except.error
      (CommandError.make ("Command " ++ commandName ++ " is already registered")
        Meta.empty)
  else
    Except.ok (reg ++ [(commandName, cmd)])

/-- `CommandRegistry.get`: case-insensitive lookup, `null` when absent. -/
def CommandRegistry.get (reg : Registry A S R) (name : String) :
    Option (Command A S R) :=
  reg.lookup (jsToUpper name)

/-- `CommandDispatcher.dispatch`: lookup, arity validation, optional parse,
execute.  `inj` embeds a raw argument list into the dynamic value type (in
JS, `rawArgs` is itself a value); the source passes `rawArgs` through
unchanged to `execute` when `parse` is undefined. -/
def CommandDispatcher.dispatch (registry : Registry A S R) (inj : List A → A)
    (engine : S) (commandName : String) (rawArgs : List A)
    (context : CommandContext) : Except CommandError (S × R) :=
  match CommandRegistry.get registry commandName with
  | none => Except.error (UnknownCommandError.make commandName)
  | some command =>
    if rawArgs.length < command.arity.min ∨ rawArgs.length > command.arity.max then
      Except.error (ArityError.make commandName ArityError.defaultDetails)
    else
      match command.parse with
      | some p =>
        match p rawArgs with
        | Except.error e => Except.error e
        | Except.ok args => command.execute engine context args
      | none => command.execute engine context (inj rawArgs)

/-! ## SetCommand (embedded in src/commands/errors.ts) -/

/-- Structured arguments of SET. -/
structure SetCommandArgs where
  key : String
  value : String
  deriving DecidableEq

/-- `SetCommand.parse` as written in the source.  Raw arguments are
modelled as strings, so the JS `String(arg)` conversion is the identity and
the falsiness test `!stringArg` holds exactly of the empty string.  The
source pushes failures onto a variable `errors` that is never declared
anywhere (the repository spec flags this defect); it is modelled as the
evidently intended local accumulator.  The reads `args[0]` and `args[1]`
rely on the arity-checked length 2. -/
def SetCommand.parse (rawArgs : List String) : Except CommandError SetCommandArgs :=
  let errors := rawArgs.filterMap fun arg =>
    if arg = "" then
      some (Detail.obj
        [("detailMsg", DetailVal.str ("Argument " ++ arg ++ " is not a valid string")),
         ("arg", DetailVal.str arg)])
    else none
  let args := rawArgs.map fun arg => if arg = "" then "" else arg
  if errors.length > 0 then
    Except.error
      ((InvalidArgumentError.make "Invalid argument(s) for SET command" Meta.empty).addDetails
        (Sum.inr errors))
  else
    Except.ok { key := args.getD 0 "", value := args.getD 1 "" }

/-- Declared arity of SET. -/
def SetCommand.arity : Arity := ⟨2, 2⟩

/-! ## ExpireCommand (src/commands/handlers/ttl.ts, absent from src/) -/

/-- Structured arguments of EXPIRE. -/
structure ExpireArgs where
  key : String
  seconds : ℕ
  deriving DecidableEq

/-- Modelled from the spec: the EXPIRE handler file
src/commands/handlers/ttl.ts is not present under src/.  Its parse step is
modelled from spec section 4.6 and docs/Low-Level.md section 3.3: the key
must be string-shaped and seconds must be a strictly positive integer;
zero, negative and non-integer values are invalid-argument errors.  The raw
seconds token is modelled as a rational so that non-integer inputs are
expressible. -/
def ExpireCommand.parse (rawKey : String) (rawSeconds : ℚ) :
    Except CommandError ExpireArgs :=
  if 0 < rawSeconds ∧ rawSeconds.den = 1 then
    Except.ok { key := rawKey, seconds := rawSeconds.num.toNat }
  else
    Except.error
      (InvalidArgumentError.make "Invalid argument(s) for EXPIRE command" Meta.empty)

/-- Modelled from the spec: EXPIRE execute, from spec section 4.6 and
docs/Low-Level.md section 3.3: `get` tests existence (applying lazy
expiry); if the key is absent the result is 0 with no further effect,
otherwise the absolute instant now + seconds * 1000 is recorded via
`setExpiry` and the result is 1. -/
def ExpireCommand.execute (db : Database E) (now : ℕ) (args : ExpireArgs) :
    Database E × ℕ :=
  match db.get now args.key with
  | (db1, none) => (db1, 0)
  | (db1, some _) => (db1.setExpiry args.key (now + args.seconds * 1000), 1)

/-! ## Theorems for the command layer -/

/-- C4: the source parse of SET evaluated at the failing input
`["k", ""]`: the empty-string value is flagged as an invalid argument and
the call reports an invalid-argument error, whereas the claim (and the
repository docs) require the empty string to be accepted as a valid value.
A two-argument list of nonempty strings is parsed into the structured
pair from positions 0 and 1. -/
theorem C4_empty_string_rejected :
    SetCommand.parse ["k", ""] =
      Except.error
        ((InvalidArgumentError.make "Invalid argument(s) for SET command"
            Meta.empty).addDetails
          (Sum.inr [Detail.obj
            [("detailMsg", DetailVal.str "Argument  is not a valid string"),
             ("arg", DetailVal.str "")]])) ∧
    SetCommand.parse ["k", "v"] = Except.ok ⟨"k", "v"⟩ := by
  constructor <;> rfl

/-- A SET-shaped command fixture for dispatch theorems, carrying the
declared name and arity of SetCommand; parse and execute play no role on
the arity-error path. -/
def setFixture : Command ℕ ℕ ℕ :=
  { name := "SET"
    arity := SetCommand.arity
    isWrite := true
    parse := none
    execute := fun s _ _ => Except.ok (s, 0) }

/-- C5: dispatching SET (declared arity 2..2) with one raw argument: the
arity error carries argsCount 0 and message bounds 0..0 — not the declared
bounds 2..2 and the actual count 1 that the claim requires — because
dispatcher.ts invokes the ArityError constructor without its meta argument,
so the declared all-zero default applies.  An in-range argument list does
pass the arity check. -/
theorem C5_arity_meta_defaulted :
    CommandDispatcher.dispatch [("SET", setFixture)] (fun _ => 0) 0 "SET" [99]
        ⟨0, none⟩ =
      Except.error (ArityError.make "SET" ArityError.defaultDetails) ∧
    (ArityError.make "SET" ArityError.defaultDetails).meta.argsCount = some 0 ∧
    (ArityError.make "SET" ArityError.defaultDetails).message =
      "Wrong number of arguments for SET expected 0..0 got 0" ∧
    setFixture.arity = ⟨2, 2⟩ ∧
    ([(99 : ℕ)] : List ℕ).length = 1 ∧
    CommandDispatcher.dispatch [("SET", setFixture)] (fun _ => 0) 0 "SET"
        [99, 100] ⟨0, none⟩ = Except.ok (0, 0) :=
  ⟨rfl, rfl, rfl, rfl, rfl, rfl⟩

/-- C6: dispatch proceeds in strict order.  Lookup is determined by the
uppercased name; an absent name yields an unknown-command error carrying
the requested name, independent of any command; for a found command an
out-of-bounds argument count yields the arity error regardless of the
parse and execute hooks; within bounds, a missing parse step passes the
raw arguments through unchanged to execute; an error from parse is
returned unchanged, and a parse success hands exactly the parsed value to
execute, whose result (error or not) is returned unchanged. -/
theorem C6_dispatch_order (registry : Registry A S R) (inj : List A → A)
    (engine : S) (commandName : String) (rawArgs : List A)
    (context : CommandContext) :
    (∀ name2, jsToUpper commandName = jsToUpper name2 →
      CommandRegistry.get registry commandName =
        CommandRegistry.get registry name2) ∧
    (CommandRegistry.get registry commandName = none →
      CommandDispatcher.dispatch registry inj engine commandName rawArgs context =
        Except.error (UnknownCommandError.make commandName)) ∧
    (∀ command, CommandRegistry.get registry commandName = some command →
      (rawArgs.length < command.arity.min ∨ rawArgs.length > command.arity.max) →
      CommandDispatcher.dispatch registry inj engine commandName rawArgs context =
        Except.error (ArityError.make commandName ArityError.defaultDetails)) ∧
    (∀ command, CommandRegistry.get registry commandName = some command →
      ¬(rawArgs.length < command.arity.min ∨ rawArgs.length > command.arity.max) →
      command.parse = none →
      CommandDispatcher.dispatch registry inj engine commandName rawArgs context =
        command.execute engine context (inj rawArgs)) ∧
    (∀ command p, CommandRegistry.get registry commandName = some command →
      ¬(rawArgs.length < command.arity.min ∨ rawArgs.length > command.arity.max) →
      command.parse = some p →
      (∀ e, p rawArgs = Except.error e →
        CommandDispatcher.dispatch registry inj engine commandName rawArgs context =
          Except.error e) ∧
      (∀ args, p rawArgs = Except.ok args →
        CommandDispatcher.dispatch registry inj engine commandName rawArgs context =
          command.execute engine context args)) := by
  refine ⟨?_, ?_, ?_, ?_, ?_⟩
  · intro name2 hup
    simp only [CommandRegistry.get, hup]
  · intro hnone
    simp only [CommandDispatcher.dispatch, hnone]
  · intro command hsome hout
    simp only [CommandDispatcher.dispatch, hsome, if_pos hout]
  · intro command hsome hin hparse
    simp only [CommandDispatcher.dispatch, hsome, if_neg hin, hparse]
  · intro command p hsome hin hparse
    constructor
    · intro e he
      simp only [CommandDispatcher.dispatch, hsome, if_neg hin, hparse, he]
    · intro args ha
      simp only [CommandDispatcher.dispatch, hsome, if_neg hin, hparse, ha]

/-- A parse-free command fixture for the pass-through branch of dispatch. -/
def noParseFixture : Command ℕ ℕ ℕ :=
  { name := "PING"
    arity := ⟨0, 2⟩
    isWrite := false
    parse := none
    execute := fun s _ a => Except.ok (s, a) }

/-- Witness for C6: an unregistered name signals unknown-command, and a
lower-case name of a parse-free command dispatches the raw arguments
(injected) straight to execute. -/
theorem C6_dispatch_order_witness :
    CommandDispatcher.dispatch ([] : Registry ℕ ℕ ℕ) (fun _ => 0) 0 "NOPE" []
        ⟨0, none⟩ = Except.error (UnknownCommandError.make "NOPE") ∧
    CommandDispatcher.dispatch [("PING", noParseFixture)] (fun l => l.length) 0
        "ping" [5] ⟨0, none⟩ = Except.ok (0, 1) := by
  have h1 := C6_dispatch_order ([] : Registry ℕ ℕ ℕ) (fun _ => 0) 0 "NOPE" []
    ⟨0, none⟩
  have h2 := C6_dispatch_order [("PING", noParseFixture)] (fun l => l.length) 0
    "ping" [5] ⟨0, none⟩
  refine ⟨h1.2.1 rfl, ?_⟩
  have h3 := h2.2.2.2.1 noParseFixture rfl (by decide) rfl
  exact h3

/-- C7: EXPIRE rejects a seconds argument that is zero, negative or not an
integer with an invalid-argument error, and accepts every strictly
positive integer; its execute returns 0 leaving exactly the state produced
by the lazy-expiry `get` when the key is absent, and otherwise records the
absolute instant now + seconds * 1000 via `setExpiry` and returns 1. -/
theorem C7_expire_semantics (rawKey : String) (q : ℚ) (n : ℕ)
    (db : Database E) (now : ℕ) (args : ExpireArgs) :
    (¬(0 < q ∧ q.den = 1) → ExpireCommand.parse rawKey q =
      Except.error
        (InvalidArgumentError.make "Invalid argument(s) for EXPIRE command"
          Meta.empty)) ∧
    (0 < n → ExpireCommand.parse rawKey (n : ℚ) =
      Except.ok { key := rawKey, seconds := n }) ∧
    ((db.get now args.key).2 = none →
      ExpireCommand.execute db now args = ((db.get now args.key).1, 0)) ∧
    (∀ entry, (db.get now args.key).2 = some entry →
      ExpireCommand.execute db now args =
        ((db.get now args.key).1.setExpiry args.key (now + args.seconds * 1000),
          1)) := by
  refine ⟨?_, ?_, ?_, ?_⟩
  · intro hbad
    simp only [ExpireCommand.parse, if_neg hbad]
  · intro hpos
    have hcond : 0 < (n : ℚ) ∧ ((n : ℚ)).den = 1 := by
      constructor
      · exact_mod_cast hpos
      · simp
    simp only [ExpireCommand.parse, if_pos hcond]
    simp
  · intro hnone
    rcases hdb : db.get now args.key with ⟨db1, r⟩
    rw [hdb] at hnone
    simp only at hnone
    subst hnone
    simp [ExpireCommand.execute, hdb]
  · intro entry hsomeE
    rcases hdb : db.get now args.key with ⟨db1, r⟩
    rw [hdb] at hsomeE
    simp only at hsomeE
    subst hsomeE
    simp [ExpireCommand.execute, hdb]

/-- Witness for C7: seconds -5 is rejected, seconds 100 is accepted, and
EXPIRE of an absent key on an empty database returns 0 and leaves the
database unchanged. -/
theorem C7_expire_semantics_witness :
    ExpireCommand.parse "k" (-5 : ℚ) =
      Except.error
        (InvalidArgumentError.make "Invalid argument(s) for EXPIRE command"
          Meta.empty) ∧
    ExpireCommand.parse "k" ((100 : ℕ) : ℚ) =
      Except.ok { key := "k", seconds := 100 } ∧
    ExpireCommand.execute (Database.empty : Database ℕ) 0 ⟨"k", 100⟩ =
      (Database.empty, 0) := by
  have h := C7_expire_semantics "k" (-5 : ℚ) 100 (Database.empty : Database ℕ)
    0 ⟨"k", 100⟩
  refine ⟨h.1 ?_, h.2.1 (by norm_num), ?_⟩
  · rintro ⟨hpos, -⟩
    norm_num at hpos
  have hget : ((Database.empty : Database ℕ).get 0 "k").2 = none := rfl
  have h3 := h.2.2.1 hget
  simpa using h3

/-- C8 counterexample: `addDetails` changes the details list of a
constructed error, so an error value is not immutable in the claimed
sense — the claim that no exposed operation changes the details is false
at this concrete input. -/
theorem C8_addDetails_mutates :
    ((CommandError.make "m" Meta.empty).addDetails
        (Sum.inl (Detail.str "d"))).details ≠
      (CommandError.make "m" Meta.empty).details := by decide

/-- C8 amended: the metadata of an error is frozen at construction: the
one exposed mutator, `addDetails`, changes neither `meta` nor the error
kind (`name`) nor `message`, only appending to the details list; and each
taxonomy constructor deterministically fixes the kind and metadata shape
of the error obtained from a given input. -/
theorem C8_meta_frozen (e : CommandError) (d : Detail ⊕ List Detail)
    (c : String) :
    (e.addDetails d).meta = e.meta ∧
    (e.addDetails d).name = e.name ∧
    (e.addDetails d).message = e.message ∧
    (UnknownCommandError.make c).name = "UnknownCommandError" ∧
    (UnknownCommandError.make c).meta.command = some c := by
  refine ⟨?_, ?_, ?_, rfl, rfl⟩ <;> cases d <;> rfl

end CustomRedis
